import Mathlib

/-!
Verification of the sc-quote Salesforce integration adapter.

The JavaScript source (src/api/salesforce.js and src/server.js) is shallowly
embedded: JS strings are lists of characters, nullable values are `Option`,
thrown errors are explicit error values, and the outbound HTTP world is passed
in as explicit data (one response per request, in request order).
-/

namespace SCQ

/-- JS strings, modelled as lists of characters.  JS `split` on a single
character separator is `List.splitOn`. -/
abbrev Str := List Char

/-- JS falsiness test for an environment variable that is either absent
(`undefined`) or a string: `!v` is true exactly when the variable is missing
or the empty string. -/
def envMissing (s : Option Str) : Bool :=
  match s with
  | none => true
  | some t => t.isEmpty

/-- JS `x || d` where `x` is a string or absent: the default is taken when the
value is absent (null/undefined) or the empty string (both falsy). -/
def jsOr (x : Option Str) (d : Str) : Str :=
  match x with
  | some s => if s.isEmpty then d else s
  | none => d

/-- JS `parseInt(s, 10)` restricted to the inputs this program feeds it
(digit substrings of dates): the longest prefix of decimal digits is read,
`none` (JS `NaN`) when there is no digit prefix.  Leading whitespace and sign
handling of full `parseInt` are irrelevant here and elided. -/
def parseIntDec (s : Str) : Option Nat :=
  if (s.takeWhile Char.isDigit).isEmpty then none
  else some ((s.takeWhile Char.isDigit).foldl (fun n c => 10 * n + (c.toNat - 48)) 0)

/-- The character for a decimal digit `d < 10`. -/
def digitChar (d : Nat) : Char := Char.ofNat (48 + d)

/-- Little-endian base-10 digits, fuel-structural so that it reduces in the
kernel (`Nat.digits` is well-founded and does not). -/
def digitsLE : Nat → Nat → List Nat
  | 0, _ => []
  | _ + 1, 0 => []
  | fuel + 1, n + 1 => ((n + 1) % 10) :: digitsLE fuel ((n + 1) / 10)

/-- Decimal rendering of a natural number, as produced by JS template
interpolation of a number (no leading zeros). -/
def natToStr (n : Nat) : Str :=
  if n = 0 then ['0'] else ((digitsLE n n).map digitChar).reverse

/-- JS template interpolation of a `parseInt` result: `NaN` renders as the
string `"NaN"`. -/
def numToStr : Option Nat → Str
  | none => "NaN".toList
  | some n => natToStr n

/-- JS template interpolation of a possibly-undefined string. -/
def strOfOpt : Option Str → Str
  | none => "undefined".toList
  | some s => s

/-- Zero padding to width `k`, as used to build `YYYY-MM-DD` inputs. -/
def padZeros (k : Nat) (s : Str) : Str := List.replicate (k - s.length) '0' ++ s

/-- An ISO `YYYY-MM-DD` date string built from numeric components. -/
def isoDateStr (y m d : Nat) : Str :=
  padZeros 4 (natToStr y) ++ '-' :: (padZeros 2 (natToStr m) ++ '-' :: padZeros 2 (natToStr d))

/-- Embeds `formatDateMDY` from src/api/salesforce.js lines 169-173:
`if (!isoDate) return ''; const [year, month, day] = isoDate.split('-');
return` the template literal interpolating `parseInt(month, 10)`,
`parseInt(day, 10)` and `year`, separated by slashes. -/
def formatDateMDY : Option Str → Str
  | none => []
  | some s =>
    if s.isEmpty then []
    else
      numToStr (((s.splitOn '-')[1]?).bind parseIntDec) ++ '/' ::
        (numToStr (((s.splitOn '-')[2]?).bind parseIntDec) ++ '/' ::
          strOfOpt (s.splitOn '-')[0]?)

/-- Embeds `deriveCloseMonth` from src/api/salesforce.js lines 200-204:
`if (!isoDate) return ''; const [year, month] = isoDate.split('-');
return` the template literal `month/1/year` with `parseInt(month, 10)`. -/
def deriveCloseMonth : Option Str → Str
  | none => []
  | some s =>
    if s.isEmpty then []
    else
      numToStr (((s.splitOn '-')[1]?).bind parseIntDec) ++ '/' :: '1' :: '/' ::
        strOfOpt (s.splitOn '-')[0]?

/-- An `Error` object thrown by the pipeline, carrying the `message`,
`code` and `status` properties the source attaches. -/
structure SfError where
  message : Str
  code : String
  status : Nat
deriving DecidableEq

/-- The four environment variables read by the pipeline; `none` models an
unset variable. -/
structure Env where
  SF_CLIENT_ID : Option Str
  SF_CLIENT_SECRET : Option Str
  SF_REFRESH_TOKEN : Option Str
  SF_INSTANCE_URL : Option Str

/-- Parsed JSON of a token-endpoint response body. -/
structure TokenBody where
  access_token : Option Str
  error_description : Option Str
deriving DecidableEq

/-- A token-endpoint response: HTTP success flag and body (`none` when the
body is not parseable JSON). -/
structure TokenResponse where
  ok : Bool
  body : Option TokenBody
deriving DecidableEq

/-- Outcome of `refreshAccessToken`: the returned `data.access_token`
(possibly `undefined`), a thrown tagged `Error`, or the untagged exception of
`response.json()` failing on a 2xx body. -/
inductive AuthResult where
  | token (t : Option Str)
  | thrown (e : SfError)
  | jsonFailure
deriving DecidableEq

def missingCredsMsg : Str := "Missing Salesforce credentials in environment variables".toList

def authFailMsg : Str := "Failed to authenticate with Salesforce".toList

def missingUrlMsg : Str := "Missing SF_INSTANCE_URL in environment variables".toList

def queryFailMsg : Str := "Failed to query Salesforce".toList

/-- Embeds `refreshAccessToken` from src/api/salesforce.js lines 55-92.  The token
endpoint's answer to the single POST is passed in as `resp`; the second
component of the result counts outbound HTTP requests actually issued. -/
def refreshAccessToken (env : Env) (resp : TokenResponse) : AuthResult × Nat :=
  if envMissing env.SF_CLIENT_ID || envMissing env.SF_CLIENT_SECRET
      || envMissing env.SF_REFRESH_TOKEN then
    (.thrown ⟨missingCredsMsg, "CONFIG_ERROR", 500⟩, 0)
  else if !resp.ok then
    (.thrown ⟨jsOr (resp.body.bind TokenBody.error_description) authFailMsg,
      "AUTH_ERROR", 401⟩, 1)
  else
    match resp.body with
    | none => (.jsonFailure, 1)
    | some b => (.token b.access_token, 1)

/-- One page response from the record-query endpoint.  `records` is the
optional `records` field, `nextRecordsUrl` the optional continuation path,
`errorMessage` the `errorData[0]?.message` of a parsed error body.  The
records themselves are opaque to the pagination loop, hence the type
parameter. -/
structure Page (α : Type) where
  ok : Bool
  status : Nat
  records : Option (List α)
  nextRecordsUrl : Option Str
  errorMessage : Option Str

/-- The `while (nextRecordsUrl)` loop of `querySalesforce`
(src/api/salesforce.js lines 116-148).  The server is modelled as a function
from request number to page response (the URL bookkeeping — instance base URL
plus continuation path — only selects which page answers which request and is
elided).  Explicit fuel makes the possibly-unbounded loop total: `none` means
the loop has not terminated within `fuel` iterations.  On termination the
result carries the thrown `QueryError` or the accumulated records, plus the
total number of page requests issued. -/
def queryLoop {α : Type} (pages : Nat → Page α) :
    Nat → Nat → List α → Option (Except SfError (List α) × Nat)
  | 0, _, _ => none
  | fuel + 1, i, acc =>
    if (pages i).ok then
      match (pages i).nextRecordsUrl with
      | some _ => queryLoop pages fuel (i + 1) (acc ++ ((pages i).records.getD []))
      | none => some (.ok (acc ++ ((pages i).records.getD [])), i + 1)
    else
      some (.error ⟨jsOr (pages i).errorMessage queryFailMsg, "QUERY_ERROR",
        (pages i).status⟩, i + 1)

/-- Embeds `querySalesforce` from src/api/salesforce.js lines 97-149: the
`SF_INSTANCE_URL` config check, then the pagination loop started on the
initial query URL with an empty accumulator. -/
def querySalesforce {α : Type} (env : Env) (pages : Nat → Page α) (fuel : Nat) :
    Option (Except SfError (List α) × Nat) :=
  if envMissing env.SF_INSTANCE_URL then
    some (.error ⟨missingUrlMsg, "CONFIG_ERROR", 500⟩, 0)
  else
    queryLoop pages fuel 0 []

/-- Concatenation, in request order, of the `records` arrays of `n`
consecutive pages starting at request `j` (absent `records` = empty). -/
def pageRecords {α : Type} (pages : Nat → Page α) : Nat → Nat → List α
  | _, 0 => []
  | j, n + 1 => ((pages j).records.getD []) ++ pageRecords pages (j + 1) n

/-- A pathological server behavior that always supplies a continuation
path. -/
def alwaysMore : Nat → Page Unit :=
  fun _ => ⟨true, 200, some [()], some "/services/data/next".toList, none⟩

/-- Outcome of the method-dispatch prologue of the Vercel `handler`
(src/api/salesforce.js lines 4-21), before the try block runs the
pipeline. -/
inductive HandlerStep where
  | reject (status : Nat) (code : String)
  | preflight (status : Nat)
  | proceed
deriving DecidableEq

/-- The prologue of `handler`: `if (req.method !== 'GET')` return the 405
`METHOD_NOT_ALLOWED` JSON; then set CORS headers; then
`if (req.method === 'OPTIONS')` return a 200 preflight; otherwise fall
through to the pipeline. -/
def handlerDispatch (method : String) : HandlerStep :=
  if method ≠ "GET" then .reject 405 "METHOD_NOT_ALLOWED"
  else if method = "OPTIONS" then .preflight 200
  else .proceed

/-- A fully populated credential environment. -/
def env4 : Env :=
  ⟨some "cid".toList, some "sec".toList, some "rft".toList,
    some "https://inst.example".toList⟩

/-- A credential environment missing only the instance base URL. -/
def envNoUrl : Env := ⟨some "cid".toList, some "sec".toList, some "rft".toList, none⟩

/-- A 2xx token response whose body carries an access token. -/
def tokenRespOk : TokenResponse := ⟨true, some ⟨some "tok".toList, none⟩⟩

/-- A 2xx token response whose parsed body lacks `access_token`. -/
def tokenRespNoToken : TokenResponse := ⟨true, some ⟨none, none⟩⟩

/-- A non-2xx token response with an `error_description`. -/
def tokenRespDenied : TokenResponse := ⟨false, some ⟨none, some "expired token".toList⟩⟩

/-- A credential environment missing only the client identifier. -/
def envMissingCid : Env :=
  ⟨none, some "sec".toList, some "rft".toList, some "https://inst.example".toList⟩

/-- Three concrete successful pages of record-counts 2, 2 and 1, the first
two carrying a continuation path. -/
def pages221 : Nat → Page Nat
  | 0 => ⟨true, 200, some [0, 1], some "/n1".toList, none⟩
  | 1 => ⟨true, 200, some [2, 3], some "/n2".toList, none⟩
  | _ => ⟨true, 200, some [4], none, none⟩

/-- A server whose second page request fails with status 400 and an error
body message. -/
def pagesErr : Nat → Page Nat
  | 0 => ⟨true, 200, some [0, 1], some "/n1".toList, none⟩
  | _ => ⟨false, 400, none, none, some "MALFORMED_QUERY: bad".toList⟩

/-- Strict all-digits parse used by the ISO timestamp parser: `none` unless
the string is nonempty and entirely decimal digits. -/
def parseAllDigits (s : Str) : Option Nat :=
  if s.isEmpty then none
  else if s.all Char.isDigit then
    some (s.foldl (fun n c => 10 * n + (c.toNat - 48)) 0)
  else none

/-- Days since 1970-01-01 of a Gregorian civil date (valid for year ≥ 1,
1 ≤ month ≤ 12); Hinnant's days_from_civil algorithm, the standard model of
epoch-day arithmetic performed by the JS `Date` object. -/
def daysFromCivil (y m d : Nat) : Int :=
  let y2 := if m ≤ 2 then y - 1 else y
  let era := y2 / 400
  let yoe := y2 % 400
  let mp := if 2 < m then m - 3 else m + 9
  let doy := (153 * mp + 2) / 5 + d - 1
  let doe := yoe * 365 + yoe / 4 - yoe / 100 + doy
  (era * 146097 + doe : Int) - 719468

/-- Civil date `(year, month, day)` of an epoch day number (valid for dates
from year 1 on); Hinnant's civil_from_days algorithm. -/
def civilFromDays (z : Int) : Nat × Nat × Nat :=
  let z2 := (z + 719468).toNat
  let era := z2 / 146097
  let doe := z2 % 146097
  let yoe := (doe - doe / 1460 + doe / 36524 - doe / 146096) / 365
  let y := yoe + era * 400
  let doy := doe - (365 * yoe + yoe / 4 - yoe / 100)
  let mp := (5 * doy + 2) / 153
  let d := doy - (153 * mp + 2) / 5 + 1
  let m := if mp < 10 then mp + 3 else mp - 9
  (if m ≤ 2 then y + 1 else y, m, d)

/-- Day of week (Sunday = 0) of an epoch day number (1970-01-01 was a
Thursday). -/
def weekday (z : Int) : Nat := ((z + 4).emod 7).toNat

/-- Day of month (1-based) of the first Sunday of the given month. -/
def firstSundayOfMonth (y m : Nat) : Nat :=
  1 + (7 - weekday (daysFromCivil y m 1)) % 7

/-- UTC millisecond instant at which US daylight saving starts in year `y`:
second Sunday of March, 02:00 EST = 07:00 UTC (post-2007 rule). -/
def dstStartMs (y : Nat) : Int :=
  daysFromCivil y 3 (firstSundayOfMonth y 3 + 7) * 86400000 + 7 * 3600000

/-- UTC millisecond instant at which US daylight saving ends in year `y`:
first Sunday of November, 02:00 EDT = 06:00 UTC (post-2007 rule). -/
def dstEndMs (y : Nat) : Int :=
  daysFromCivil y 11 (firstSundayOfMonth y 11) * 86400000 + 6 * 3600000

/-- Offset from UTC, in minutes, of the America/New_York zone at a UTC
instant: -240 during daylight saving, -300 otherwise.  This models the IANA
zone data consulted by `toLocaleString(..., timeZone: America/New_York)`
for post-2007 instants. -/
def easternOffsetMin (t : Int) : Int :=
  let y := (civilFromDays (t.ediv 86400000)).1
  if dstStartMs y ≤ t ∧ t < dstEndMs y then -240 else -300

/-- en-US `toLocaleString` rendering of a UTC instant shifted by a zone
offset, with the options the source passes: numeric month/day/year, 12-hour
clock with numeric hour, 2-digit minute, `AM`/`PM`. -/
def renderLocal (t offMin : Int) : Str :=
  let lt := t + offMin * 60000
  let msInDay := (lt.emod 86400000).toNat
  let ymd := civilFromDays (lt.ediv 86400000)
  let hh := msInDay / 3600000
  let mi := msInDay / 60000 % 60
  let h12 := if hh % 12 = 0 then 12 else hh % 12
  natToStr ymd.2.1 ++ '/' :: natToStr ymd.2.2 ++ '/' :: natToStr ymd.1
    ++ ',' :: ' ' :: natToStr h12 ++ ':' :: padZeros 2 (natToStr mi)
    ++ ' ' :: (if hh < 12 then ['A', 'M'] else ['P', 'M'])

/-- Parse `HH:MM`, `HH:MM:SS` or `HH:MM:SS.mmm` to milliseconds within the
day (three-digit fractions only, the shape the remote API emits). -/
def parseTimeMs (s : Str) : Option Nat :=
  match s.splitOn ':' with
  | [hs, ms2] => do
    let h ← parseAllDigits hs
    let mi ← parseAllDigits ms2
    pure (h * 3600000 + mi * 60000)
  | [hs, ms2, ss] =>
    match ss.splitOn '.' with
    | [sec] => do
      let h ← parseAllDigits hs
      let mi ← parseAllDigits ms2
      let sv ← parseAllDigits sec
      pure (h * 3600000 + mi * 60000 + sv * 1000)
    | [sec, frac] => do
      let h ← parseAllDigits hs
      let mi ← parseAllDigits ms2
      let sv ← parseAllDigits sec
      let f ← parseAllDigits frac
      if frac.length = 3 then pure (h * 3600000 + mi * 60000 + sv * 1000 + f) else none
    | _ => none
  | _ => none

/-- Parse a numeric UTC offset `HHMM` or `HH:MM` to minutes. -/
def parseOffsetMin (s : Str) : Option Nat :=
  match s.splitOn ':' with
  | [hm] =>
    if hm.length = 4 then do
      let h ← parseAllDigits (hm.take 2)
      let mi ← parseAllDigits (hm.drop 2)
      pure (h * 60 + mi)
    else none
  | [hs, ms2] => do
    let h ← parseAllDigits hs
    let mi ← parseAllDigits ms2
    pure (h * 60 + mi)
  | _ => none

/-- Embeds `new Date(iso)` for an ISO-8601 date-time carrying an explicit UTC
offset (`Z`, `+HHMM`, `+HH:MM` or the `-` forms), as epoch milliseconds.
Offset-less date-times (which JS interprets in the environment-local zone)
and other `Date` input shapes are outside the model and yield `none`. -/
def parseISO (s : Str) : Option Int :=
  match s.splitOn 'T' with
  | [ds, ts] => do
    let ymd ← (match ds.splitOn '-' with
      | [ys, mos, dds] => do
        let y ← parseAllDigits ys
        let mo ← parseAllDigits mos
        let dd ← parseAllDigits dds
        pure (y, mo, dd)
      | _ => none)
    let tov ← (match ts.getLast? with
      | some 'Z' => (parseTimeMs ts.dropLast).map (fun msd => (msd, (0 : Int)))
      | _ =>
        match ts.splitOn '+' with
        | [tb, off] => do
          let msd ← parseTimeMs tb
          let o ← parseOffsetMin off
          pure (msd, (o : Int))
        | [tb1] =>
          match tb1.splitOn '-' with
          | [tb, off] => do
            let msd ← parseTimeMs tb
            let o ← parseOffsetMin off
            pure (msd, -(o : Int))
          | _ => none
        | _ => none)
    pure (daysFromCivil ymd.1 ymd.2.1 ymd.2.2 * 86400000 + tov.1 - tov.2 * 60000)
  | _ => none

/-- Shared shape of both `formatTimestamp` variants: falsy input gives the
empty string; otherwise build the `Date` and render it with the given
zone-offset function (`Invalid Date` when the timestamp does not parse). -/
def formatTimestampWith (offFn : Int → Int) (iso : Option Str) : Str :=
  match iso with
  | none => []
  | some s =>
    if s.isEmpty then []
    else
      match parseISO s with
      | none => "Invalid Date".toList
      | some t => renderLocal t (offFn t)

/-- Embeds `formatTimestamp` from src/api/salesforce.js lines 179-194: the
`timeZone: America/New_York` option is hardcoded, so rendering uses the
fixed Eastern offset and takes no environment input. -/
def formatTimestamp (iso : Option Str) : Str :=
  formatTimestampWith easternOffsetMin iso

/-- Embeds `formatTimestamp` from src/server.js lines 129-140: no `timeZone` option
is passed, so rendering uses the execution environment's local zone,
supplied here as `envOffset`. -/
def formatTimestampSrv (envOffset : Int → Int) (iso : Option Str) : Str :=
  formatTimestampWith envOffset iso

/-- The example timestamp of the spec,
`"2023-08-28T12:07:00.000+0000"`. -/
def exTs : Str := "2023-08-28T12:07:00.000+0000".toList

/-- The nested `Owner` object of a raw record. -/
structure OwnerObj where
  Name : Option Str
deriving DecidableEq

/-- A JS number, represented by its decimal rendering: the transform only
ever applies `toString()` to it, and exact IEEE-754 float formatting is not
otherwise observable here. -/
structure JsNumber where
  render : Str
deriving DecidableEq

/-- One raw record as returned by the query endpoint (the SOQL fields of
src/api/salesforce.js line 109); `none` covers both null and absent. -/
structure RawRecord where
  Id : Option Str
  Amount : Option JsNumber
  CloseDate : Option Str
  Quote_sent_TImestamp_2__c : Option Str
  StageName : Option Str
  Owner : Option OwnerObj
deriving DecidableEq

/-- The transformed output record: exactly six fields, each a string.  The
field names carry the output keys `Amount`, `Close Date`,
`Quote sent TImestamp 2`, `Stage`, `Opportunity Owner`, `Close Month`. -/
structure TransformedRecord where
  Amount : Str
  CloseDate : Str
  QuoteSentTImestamp2 : Str
  Stage : Str
  OpportunityOwner : Str
  CloseMonth : Str
deriving DecidableEq

/-- The per-record arrow function of `transformData`
(src/api/salesforce.js lines 155-162). -/
def transformRecord (record : RawRecord) : TransformedRecord where
  Amount := match record.Amount with
    | some a => a.render
    | none => "0".toList
  CloseDate := formatDateMDY record.CloseDate
  QuoteSentTImestamp2 := formatTimestamp record.Quote_sent_TImestamp_2__c
  Stage := jsOr record.StageName []
  OpportunityOwner := jsOr (record.Owner.bind OwnerObj.Name) "Unknown".toList
  CloseMonth := deriveCloseMonth record.CloseDate

/-- Embeds `transformData` from src/api/salesforce.js lines 154-163:
`records.map(record => ({ ... }))`. -/
def transformData (records : List RawRecord) : List TransformedRecord :=
  records.map transformRecord

/-- A raw record with every field null/absent except `Id`. -/
def nullRecord : RawRecord :=
  ⟨some "006xx0000012345".toList, none, none, none, none, none⟩

/-- A raw record whose owner object is present with an empty-string name. -/
def emptyOwnerRecord : RawRecord :=
  ⟨some "006A".toList, none, none, none, none, some ⟨some []⟩⟩

theorem digitsLE_eq (fuel n : Nat) (h : n ≤ fuel) : digitsLE fuel n = Nat.digits 10 n := by
  induction fuel generalizing n with
  | zero =>
    have hn : n = 0 := Nat.le_zero.mp h
    subst hn
    simp [digitsLE]
  | succ f ih =>
    cases n with
    | zero => simp [digitsLE]
    | succ k =>
      rw [Nat.digits_def' (by norm_num : (1 : Nat) < 10) (Nat.succ_pos k)]
      show ((k + 1) % 10) :: digitsLE f ((k + 1) / 10) = _
      rw [ih ((k + 1) / 10) (by omega)]

theorem natToStr_eq (n : Nat) :
    natToStr n = if n = 0 then ['0'] else ((Nat.digits 10 n).map digitChar).reverse := by
  unfold natToStr
  by_cases hn : n = 0
  · simp [hn]
  · rw [if_neg hn, if_neg hn, digitsLE_eq n n le_rfl]

theorem digitChar_isDigit {d : Nat} (hd : d < 10) : (digitChar d).isDigit = true := by
  interval_cases d <;> decide

theorem digitChar_toNat {d : Nat} (hd : d < 10) : (digitChar d).toNat - 48 = d := by
  interval_cases d <;> decide

theorem isDigit_ne_dash {c : Char} (hc : c.isDigit = true) : c ≠ '-' := by
  intro h
  rw [h] at hc
  exact absurd hc (by decide)

theorem digitChar_ne_zero {d : Nat} (hd : d < 10) (h0 : d ≠ 0) : digitChar d ≠ '0' := by
  interval_cases d
  · exact absurd rfl h0
  all_goals decide

theorem mem_natToStr_isDigit {n : Nat} {c : Char} (hc : c ∈ natToStr n) : c.isDigit = true := by
  rw [natToStr_eq] at hc
  by_cases hn : n = 0
  · rw [if_pos hn] at hc
    simp only [List.mem_singleton] at hc
    rw [hc]; decide
  · rw [if_neg hn, List.mem_reverse, List.mem_map] at hc
    obtain ⟨d, hd, rfl⟩ := hc
    exact digitChar_isDigit (Nat.digits_lt_base (by norm_num) hd)

theorem natToStr_ne_nil (n : Nat) : natToStr n ≠ [] := by
  rw [natToStr_eq]
  by_cases hn : n = 0
  · simp [hn]
  · rw [if_neg hn]
    intro h
    have hd : Nat.digits 10 n = [] := by
      have hlen := congrArg List.length h
      simp only [List.length_reverse, List.length_map, List.length_nil] at hlen
      exact List.length_eq_zero.mp hlen
    exact Nat.digits_ne_nil_iff_ne_zero.mpr hn hd

theorem natToStr_head_ne_zero {n : Nat} (hn : n ≠ 0) : (natToStr n).head? ≠ some '0' := by
  rw [natToStr_eq, if_neg hn]
  rw [← List.map_reverse, List.head?_map, List.head?_reverse]
  have hne : Nat.digits 10 n ≠ [] := Nat.digits_ne_nil_iff_ne_zero.mpr hn
  rw [List.getLast?_eq_getLast _ hne]
  intro h
  have h' : digitChar ((Nat.digits 10 n).getLast hne) = '0' := by simpa using h
  have hlt : (Nat.digits 10 n).getLast hne < 10 :=
    Nat.digits_lt_base (by norm_num) (List.getLast_mem hne)
  exact digitChar_ne_zero hlt (Nat.getLast_digit_ne_zero 10 hn) h'

theorem foldl_map_digitChar (l : List Nat) (hl : ∀ x ∈ l, x < 10) (a : Nat) :
    (l.map digitChar).foldl (fun n c => 10 * n + (c.toNat - 48)) a
      = l.foldl (fun n x => 10 * n + x) a := by
  induction l generalizing a with
  | nil => rfl
  | cons x t ih =>
    simp only [List.map_cons, List.foldl_cons, digitChar_toNat (hl x (List.mem_cons_self x t))]
    exact ih (fun y hy => hl y (List.mem_cons_of_mem x hy)) _

theorem foldl_base10 (l : List Nat) (a : Nat) :
    l.foldl (fun n x => 10 * n + x) a = a * 10 ^ l.length + Nat.ofDigits 10 l.reverse := by
  induction l generalizing a with
  | nil => simp [Nat.ofDigits]
  | cons x t ih =>
    simp only [List.foldl_cons, List.reverse_cons, List.length_cons]
    rw [ih, Nat.ofDigits_append]
    simp only [Nat.ofDigits_singleton, List.length_reverse]
    ring

theorem all_digits_padZeros {k n : Nat} {c : Char}
    (hc : c ∈ padZeros k (natToStr n)) : c.isDigit = true := by
  rcases List.mem_append.mp hc with h | h
  · rw [List.eq_of_mem_replicate h]; decide
  · exact mem_natToStr_isDigit h

theorem dash_not_mem_padZeros {k n : Nat} : '-' ∉ padZeros k (natToStr n) := by
  intro h
  exact isDigit_ne_dash (all_digits_padZeros h) rfl

theorem parseIntDec_padZeros (k n : Nat) : parseIntDec (padZeros k (natToStr n)) = some n := by
  unfold parseIntDec padZeros
  generalize k - (natToStr n).length = j
  have htw : ∀ (l : Str), (∀ c ∈ l, c.isDigit = true) → l.takeWhile Char.isDigit = l := by
    intro l hl
    induction l with
    | nil => rfl
    | cons c t ih =>
      simp only [List.takeWhile_cons, hl c (List.mem_cons_self c t), if_pos]
      rw [ih (fun x hx => hl x (List.mem_cons_of_mem c hx))]
  rw [htw _ (fun c hc => by
    rcases List.mem_append.mp hc with h | h
    · rw [List.eq_of_mem_replicate h]; decide
    · exact mem_natToStr_isDigit h)]
  have hne : (List.replicate j '0' ++ natToStr n).isEmpty = false := by
    cases h : List.replicate j '0' ++ natToStr n with
    | nil => exact absurd (List.append_eq_nil.mp h).2 (natToStr_ne_nil n)
    | cons a t => rfl
  rw [hne]
  simp only [Bool.false_eq_true, if_false]
  congr 1
  rw [List.foldl_append]
  have hzero : ∀ (j : Nat), (List.replicate j '0').foldl
      (fun n c => 10 * n + (c.toNat - 48)) 0 = 0 := by
    intro j
    induction j with
    | zero => rfl
    | succ i ih => simpa [List.replicate_succ] using ih
  rw [hzero]
  rw [natToStr_eq]
  by_cases hn : n = 0
  · simp [hn]
  · rw [if_neg hn]
    rw [← List.map_reverse,
      foldl_map_digitChar _ (fun x hx =>
        Nat.digits_lt_base (by norm_num) (List.mem_reverse.mp hx)) 0,
      foldl_base10]
    simp [Nat.ofDigits_digits]

theorem splitOn_three {y m d : Str} (hy : '-' ∉ y) (hm : '-' ∉ m) (hd : '-' ∉ d) :
    (y ++ '-' :: (m ++ '-' :: d)).splitOn '-' = [y, m, d] := by
  have hpy : ∀ x ∈ y, ¬((x == '-') = true) := fun x hx hb => hy ((eq_of_beq hb) ▸ hx)
  have hpm : ∀ x ∈ m, ¬((x == '-') = true) := fun x hx hb => hm ((eq_of_beq hb) ▸ hx)
  have hpd : ∀ x ∈ d, ¬((x == '-') = true) := fun x hx hb => hd ((eq_of_beq hb) ▸ hx)
  show (y ++ '-' :: (m ++ '-' :: d)).splitOnP (· == '-') = [y, m, d]
  rw [List.splitOnP_first _ _ hpy '-' (by simp) (m ++ '-' :: d),
    List.splitOnP_first _ _ hpm '-' (by simp) d,
    List.splitOnP_eq_single _ _ hpd]

theorem isoDateStr_not_empty (y m d : Nat) : (isoDateStr y m d).isEmpty = false := by
  unfold isoDateStr padZeros
  cases h : List.replicate (4 - (natToStr y).length) '0' ++ natToStr y with
  | nil => exact absurd (List.append_eq_nil.mp h).2 (natToStr_ne_nil y)
  | cons a t => simp [h, List.isEmpty]

/-- C7: for every `YYYY-MM-DD` close date, `Close Date` is `M/D/YYYY` and
`Close Month` is `M/1/YYYY`, month and day rendered without leading zeros and
the year substring passed through verbatim, all by string splitting on `-`;
a null close date yields the empty string for both. -/
theorem C7_close_date_split (y m d : Nat)
    (hy1 : 1000 ≤ y) (hy2 : y ≤ 9999) (hm1 : 1 ≤ m) (hm2 : m ≤ 12)
    (hd1 : 1 ≤ d) (hd2 : d ≤ 31) :
    formatDateMDY (some (isoDateStr y m d))
        = natToStr m ++ '/' :: (natToStr d ++ '/' :: padZeros 4 (natToStr y))
      ∧ deriveCloseMonth (some (isoDateStr y m d))
        = natToStr m ++ '/' :: '1' :: '/' :: padZeros 4 (natToStr y)
      ∧ (natToStr m).head? ≠ some '0'
      ∧ (natToStr d).head? ≠ some '0'
      ∧ formatDateMDY none = [] ∧ deriveCloseMonth none = [] := by
  have hsplit : (isoDateStr y m d).splitOn '-'
      = [padZeros 4 (natToStr y), padZeros 2 (natToStr m), padZeros 2 (natToStr d)] :=
    splitOn_three dash_not_mem_padZeros dash_not_mem_padZeros dash_not_mem_padZeros
  refine ⟨?_, ?_, natToStr_head_ne_zero (by omega), natToStr_head_ne_zero (by omega),
    rfl, rfl⟩
  · simp only [formatDateMDY]
    rw [isoDateStr_not_empty y m d]
    simp only [Bool.false_eq_true, if_false, hsplit]
    simp [parseIntDec_padZeros, numToStr, strOfOpt]
  · simp only [deriveCloseMonth]
    rw [isoDateStr_not_empty y m d]
    simp only [Bool.false_eq_true, if_false, hsplit]
    simp [parseIntDec_padZeros, numToStr, strOfOpt]

/-- Witness for C7 at the spec's example: `"2023-07-20"` maps to
`"7/20/2023"` and `"7/1/2023"`. -/
theorem C7_close_date_split_witness :
    formatDateMDY (some "2023-07-20".toList) = "7/20/2023".toList
      ∧ deriveCloseMonth (some "2023-07-20".toList) = "7/1/2023".toList := by
  have h := C7_close_date_split 2023 7 20 (by omega) (by omega) (by omega) (by omega)
    (by omega) (by omega)
  have he : (some "2023-07-20".toList) = some (isoDateStr 2023 7 20) := by decide
  exact ⟨he ▸ h.1.trans (by decide), he ▸ h.2.1.trans (by decide)⟩

theorem pageRecords_snoc {α : Type} (pages : Nat → Page α) :
    ∀ (n j : Nat), pageRecords pages j n ++ ((pages (j + n)).records.getD [])
      = pageRecords pages j (n + 1) := by
  intro n
  induction n with
  | zero => intro j; simp [pageRecords]
  | succ m ih =>
    intro j
    show ((pages j).records.getD [] ++ pageRecords pages (j + 1) m) ++ _ = _
    rw [List.append_assoc, show j + (m + 1) = (j + 1) + m from by omega, ih (j + 1)]
    rfl

theorem queryLoop_seq {α : Type} (pages : Nat → Page α) :
    ∀ (n j : Nat) (acc : List α) (fuel : Nat),
      (∀ i, i < n →
        (pages (j + i)).ok = true ∧ ((pages (j + i)).nextRecordsUrl).isSome = true) →
      queryLoop pages (fuel + n) j acc
        = queryLoop pages fuel (j + n) (acc ++ pageRecords pages j n) := by
  intro n
  induction n with
  | zero => intro j acc fuel _; simp [pageRecords]
  | succ m ih =>
    intro j acc fuel hok
    have h0 := hok 0 (Nat.succ_pos m)
    rw [Nat.add_zero] at h0
    obtain ⟨u, hu⟩ := Option.isSome_iff_exists.mp h0.2
    have hstep : queryLoop pages (fuel + (m + 1)) j acc
        = queryLoop pages (fuel + m) (j + 1) (acc ++ ((pages j).records.getD [])) := by
      show queryLoop pages ((fuel + m) + 1) j acc = _
      simp [queryLoop, h0.1, hu]
    rw [hstep, ih (j + 1) _ fuel (fun i hi => by
      have h := hok (i + 1) (by omega)
      rwa [show j + (i + 1) = (j + 1) + i from by omega] at h)]
    rw [show (j + 1) + m = j + (m + 1) from by omega, List.append_assoc]
    rfl

theorem queryLoop_isSome {α : Type} (pages : Nat → Page α) (k : Nat)
    (hnone : (pages k).nextRecordsUrl = none) :
    ∀ (fuel j : Nat) (acc : List α), j ≤ k → k < j + fuel →
      (queryLoop pages fuel j acc).isSome = true := by
  intro fuel
  induction fuel with
  | zero => intro j acc hj hk; omega
  | succ f ih =>
    intro j acc hj hk
    by_cases hok : (pages j).ok = true
    · rcases hurl : (pages j).nextRecordsUrl with _ | u
      · simp [queryLoop, hok, hurl]
      · have hjk : j ≠ k := by
          intro h
          rw [h, hnone] at hurl
          exact Option.noConfusion hurl
        simp only [queryLoop, hok, if_true, hurl]
        exact ih (j + 1) _ (by omega) (by omega)
    · simp [queryLoop, hok]

theorem alwaysMore_diverges : ∀ (fuel j : Nat) (acc : List Unit),
    queryLoop alwaysMore fuel j acc = none := by
  intro fuel
  induction fuel with
  | zero => intro j acc; rfl
  | succ f ih =>
    intro j acc
    simp only [queryLoop, alwaysMore]
    exact ih (j + 1) _

/-- C2: for every run of successful pages whose first `k` responses carry a
continuation and whose `k`-th response omits it, the loop returns the
concatenation of the pages' `records` arrays (absent field = empty array) in
request order, terminating exactly at that page after `k + 1` requests. -/
theorem C2_pagination_accumulates {α : Type} (pages : Nat → Page α) (k fuel : Nat)
    (hok : ∀ i, i < k → (pages i).ok = true ∧ ((pages i).nextRecordsUrl).isSome = true)
    (hlast_ok : (pages k).ok = true) (hlast : (pages k).nextRecordsUrl = none)
    (hfuel : k < fuel) :
    queryLoop pages fuel 0 [] = some (.ok (pageRecords pages 0 (k + 1)), k + 1) := by
  obtain ⟨f, rfl⟩ : ∃ f, fuel = (f + 1) + k := ⟨fuel - k - 1, by omega⟩
  rw [queryLoop_seq pages k 0 [] (f + 1) (by simpa using hok)]
  simp only [Nat.zero_add, List.nil_append]
  have hs := pageRecords_snoc pages k 0
  rw [Nat.zero_add] at hs
  simp only [queryLoop, hlast_ok, hlast, if_true]
  rw [hs]

/-- Witness for C2 on pages of sizes [2, 2, 1]: five records in original
sub-order after exactly three requests. -/
theorem C2_pagination_accumulates_witness :
    queryLoop pages221 3 0 [] = some (.ok [0, 1, 2, 3, 4], 3) := by
  have h := C2_pagination_accumulates pages221 2 3
    (by intro i hi; interval_cases i <;> exact ⟨rfl, rfl⟩) rfl rfl (by omega)
  exact h.trans (by rfl)

/-- C3: a non-2xx page response makes the loop throw a `QueryError` carrying
the upstream HTTP status; earlier pages' records are discarded (the error
carries no records) and no further page request is issued. -/
theorem C3_error_aborts {α : Type} (pages : Nat → Page α) (k fuel : Nat)
    (hok : ∀ i, i < k → (pages i).ok = true ∧ ((pages i).nextRecordsUrl).isSome = true)
    (hbad : (pages k).ok = false) (hfuel : k < fuel) :
    queryLoop pages fuel 0 []
      = some (.error ⟨jsOr (pages k).errorMessage queryFailMsg, "QUERY_ERROR",
          (pages k).status⟩, k + 1) := by
  obtain ⟨f, rfl⟩ : ∃ f, fuel = (f + 1) + k := ⟨fuel - k - 1, by omega⟩
  rw [queryLoop_seq pages k 0 [] (f + 1) (by simpa using hok)]
  simp only [Nat.zero_add, List.nil_append]
  simp [queryLoop, hbad]

/-- Witness for C3: the second page fails with status 400 after one good
page; the result is the tagged error with that status, after two requests. -/
theorem C3_error_aborts_witness :
    queryLoop pagesErr 9 0 []
      = some (.error ⟨"MALFORMED_QUERY: bad".toList, "QUERY_ERROR", 400⟩, 2) := by
  have h := C3_error_aborts pagesErr 1 9
    (by intro i hi; interval_cases i; exact ⟨rfl, rfl⟩) rfl (by omega)
  exact h.trans (by rfl)

/-- C9: whenever some page response omits the continuation field the loop
terminates (within any fuel beyond that page); with clean pages before it,
exactly one request per page up to and including that page is issued; and
there is no client-side page cap: against a server that always returns a
continuation path the loop exhausts any amount of fuel. -/
theorem C9_termination :
    (∀ (α : Type) (pages : Nat → Page α) (k : Nat),
        (pages k).nextRecordsUrl = none →
        ∀ fuel, k < fuel → (queryLoop pages fuel 0 []).isSome = true)
      ∧ (∀ (α : Type) (pages : Nat → Page α) (k fuel : Nat),
          (∀ i, i < k →
            (pages i).ok = true ∧ ((pages i).nextRecordsUrl).isSome = true) →
          (pages k).nextRecordsUrl = none → k < fuel →
          ∃ r, queryLoop pages fuel 0 [] = some (r, k + 1))
      ∧ (∀ fuel j acc, queryLoop alwaysMore fuel j acc = none) := by
  refine ⟨?_, ?_, alwaysMore_diverges⟩
  · intro α pages k hnone fuel hfuel
    exact queryLoop_isSome pages k hnone fuel 0 [] (Nat.zero_le k) (by omega)
  · intro α pages k fuel hok hnone hfuel
    obtain ⟨f, rfl⟩ : ∃ f, fuel = (f + 1) + k := ⟨fuel - k - 1, by omega⟩
    rw [queryLoop_seq pages k 0 [] (f + 1) (by simpa using hok)]
    simp only [Nat.zero_add, List.nil_append]
    by_cases hk : (pages k).ok = true
    · exact ⟨.ok (pageRecords pages 0 k ++ ((pages k).records.getD [])),
        by simp [queryLoop, hk, hnone]⟩
    · exact ⟨.error ⟨jsOr (pages k).errorMessage queryFailMsg, "QUERY_ERROR",
        (pages k).status⟩, by simp [queryLoop, hk]⟩

/-- Witness for C9: the [2,2,1] server terminates within fuel 3; the
always-continuing server exhausts fuel 7. -/
theorem C9_termination_witness :
    (queryLoop pages221 3 0 []).isSome = true ∧ queryLoop alwaysMore 7 0 [] = none :=
  ⟨C9_termination.1 Nat pages221 2 rfl 3 (by omega), C9_termination.2.2 7 0 []⟩

/-- C4 as stated is false: with only the instance base URL missing,
`refreshAccessToken` does not raise a `ConfigError`; it issues its network
call (request count 1) and returns the token. -/
theorem C4_counterexample :
    refreshAccessToken envNoUrl tokenRespOk = (.token (some "tok".toList), 1) := rfl

/-- C4 amended: each stage checks only its own configuration before any
network call — `refreshAccessToken` raises `ConfigError` (500) with zero
requests when client id, client secret or refresh token is missing/empty,
and `querySalesforce` does so when the instance base URL is missing/empty. -/
theorem C4_config_checks :
    (∀ (env : Env) (resp : TokenResponse),
        (envMissing env.SF_CLIENT_ID || envMissing env.SF_CLIENT_SECRET
          || envMissing env.SF_REFRESH_TOKEN) = true →
        refreshAccessToken env resp
          = (.thrown ⟨missingCredsMsg, "CONFIG_ERROR", 500⟩, 0))
      ∧ (∀ (α : Type) (env : Env) (pages : Nat → Page α) (fuel : Nat),
          envMissing env.SF_INSTANCE_URL = true →
          querySalesforce env pages fuel
            = some (.error ⟨missingUrlMsg, "CONFIG_ERROR", 500⟩, 0)) := by
  constructor
  · intro env resp h
    simp [refreshAccessToken, h]
  · intro α env pages fuel h
    simp [querySalesforce, h]

/-- Witness for the amended C4 at concrete environments. -/
theorem C4_config_checks_witness :
    refreshAccessToken envMissingCid tokenRespOk
        = (.thrown ⟨missingCredsMsg, "CONFIG_ERROR", 500⟩, 0)
      ∧ querySalesforce envNoUrl pages221 5
        = some (.error ⟨missingUrlMsg, "CONFIG_ERROR", 500⟩, 0) :=
  ⟨C4_config_checks.1 envMissingCid tokenRespOk rfl,
    C4_config_checks.2 Nat envNoUrl pages221 5 rfl⟩

/-- C1 as stated is false: a 2xx token response whose parsed body lacks
`access_token` does not raise an `AuthError`; `refreshAccessToken` returns
the absent field (JS `undefined`). -/
theorem C1_counterexample :
    refreshAccessToken env4 tokenRespNoToken = (.token none, 1) := rfl

/-- C1 amended: with full credentials, `AuthError` (401) is raised exactly on
non-2xx token responses; a 2xx response with a parseable body returns its
`access_token` field unchecked — the string as-is when present (hence
non-empty when non-empty), JS `undefined` rather than a failure when
absent. -/
theorem C1_token_extraction (env : Env) (resp : TokenResponse)
    (hcfg : (envMissing env.SF_CLIENT_ID || envMissing env.SF_CLIENT_SECRET
      || envMissing env.SF_REFRESH_TOKEN) = false) :
    (resp.ok = false →
        refreshAccessToken env resp
          = (.thrown ⟨jsOr (resp.body.bind TokenBody.error_description) authFailMsg,
              "AUTH_ERROR", 401⟩, 1))
      ∧ (∀ b, resp.ok = true → resp.body = some b →
          refreshAccessToken env resp = (.token b.access_token, 1)) := by
  constructor
  · intro hok
    simp [refreshAccessToken, hcfg, hok]
  · intro b hok hb
    simp [refreshAccessToken, hcfg, hok, hb]

/-- Witness for the amended C1: a denied exchange surfaces the body's
`error_description` as a 401 `AuthError`; a 2xx exchange returns the
token. -/
theorem C1_token_extraction_witness :
    refreshAccessToken env4 tokenRespDenied
        = (.thrown ⟨"expired token".toList, "AUTH_ERROR", 401⟩, 1)
      ∧ refreshAccessToken env4 tokenRespOk = (.token (some "tok".toList), 1) := by
  refine ⟨?_, ?_⟩
  · exact ((C1_token_extraction env4 tokenRespDenied rfl).1 rfl).trans (by rfl)
  · exact (C1_token_extraction env4 tokenRespOk rfl).2 ⟨some "tok".toList, none⟩ rfl rfl

/-- C5: contrary to the spec, the Vercel handler rejects OPTIONS — the
`req.method !== 'GET'` guard runs before the CORS-preflight branch, making
the latter unreachable, so OPTIONS receives the 405 `METHOD_NOT_ALLOWED`
response; GET proceeds, and any other method is rejected as specified. -/
theorem C5_options_rejected :
    handlerDispatch "OPTIONS" = .reject 405 "METHOD_NOT_ALLOWED"
      ∧ handlerDispatch "GET" = .proceed
      ∧ handlerDispatch "POST" = .reject 405 "METHOD_NOT_ALLOWED" := by
  refine ⟨?_, ?_, ?_⟩ <;> decide

/-- C6: the transform is total (a Lean function), produces one output record
per input record in input order, every output field of the six-field record
type is a string, and the all-null record maps to the documented defaults
`"0"`, `""`, `""`, `""`, `"Unknown"`, `""`. -/
theorem C6_transform_total (rs : List RawRecord) :
    (transformData rs).length = rs.length
      ∧ (∀ i, (transformData rs).get? i = (rs.get? i).map transformRecord)
      ∧ transformRecord nullRecord
        = ⟨"0".toList, [], [], [], "Unknown".toList, []⟩ := by
  refine ⟨by simp [transformData], fun i => ?_, rfl⟩
  simp [transformData]

/-- C10: an owner object present whose `Name` is the empty string (a
non-null string) still yields `"Unknown"`, because
`record.Owner?.Name || 'Unknown'` chooses the default by falsiness and the
empty string is falsy. -/
theorem C10_empty_owner_name (r : RawRecord) (h : r.Owner = some ⟨some []⟩) :
    (transformRecord r).OpportunityOwner = "Unknown".toList := by
  simp [transformRecord, h, jsOr, Option.bind]

/-- Witness for C10 at a concrete record. -/
theorem C10_empty_owner_name_witness :
    (transformRecord emptyOwnerRecord).OpportunityOwner = "Unknown".toList :=
  C10_empty_owner_name emptyOwnerRecord rfl

/-- C8 as stated is false for the src/server.js `formatTimestamp`: with the
environment zone at UTC (offset 0) the example instant renders as 12:07 PM,
not the Eastern 8:07 AM the claim requires independently of the
environment. -/
theorem C8_counterexample :
    formatTimestampSrv (fun _ => 0) (some exTs) = "8/28/2023, 12:07 PM".toList
      ∧ formatTimestampSrv (fun _ => 0) (some exTs) ≠ "8/28/2023, 8:07 AM".toList := by
  constructor <;> decide

/-- C8 amended: the src/api/salesforce.js `formatTimestamp` renders every
parsed offset-carrying ISO timestamp at the fixed Eastern offset of its
instant — it takes no environment input, so its output is
environment-independent — while the src/server.js variant renders at the
environment's own zone offset. -/
theorem C8_eastern_fixed (iso : Str) (t : Int) (hp : parseISO iso = some t)
    (hne : iso.isEmpty = false) :
    formatTimestamp (some iso) = renderLocal t (easternOffsetMin t)
      ∧ ∀ envOffset : Int → Int,
          formatTimestampSrv envOffset (some iso) = renderLocal t (envOffset t) := by
  constructor
  · simp [formatTimestamp, formatTimestampWith, hne, hp]
  · intro envOffset
    simp [formatTimestampSrv, formatTimestampWith, hne, hp]

/-- Witness for the amended C8: the spec's example timestamp renders as
`"8/28/2023, 8:07 AM"` (EDT, UTC-4). -/
theorem C8_eastern_fixed_witness :
    formatTimestamp (some exTs) = "8/28/2023, 8:07 AM".toList := by
  have h := (C8_eastern_fixed exTs 1693224420000 (by decide) (by decide)).1
  exact h.trans (by decide)

end SCQ
